import Mathlib

/-!
Verification of `tiny_performance_counter` (header-only Windows performance
counter sampler) against its natural-language specification.

The C++ implementation is shallowly embedded below.  Wide strings
(`std::wstring`) are `List Char`; `double` values are idealised as `ℚ`
(the arithmetic involved — additions, halving, min, division by a small
integer — is exact); `size_t` is `Nat`, with `NPOS64` standing for
`std::wstring::npos` on a 64-bit target; `uint64_t` sums are taken
modulo `2 ^ 64`.  Values delivered by the PDH counter subsystem (raw
counter arrays, statuses) are inputs of each operation, collected in
environment records.
-/

namespace TinyPerf

/-- A `std::wstring`, embedded as a list of characters. -/
abbrev WStr := List Char

/-- `pat` is a prefix of `s` (used to embed `std::wstring::find`). -/
def isPrefixL : WStr → WStr → Bool
  | [], _ => true
  | _ :: _, [] => false
  | a :: as, b :: bs => a == b && isPrefixL as bs

/-- Embeds `s.find(pat)`: the least index at which `pat` occurs in `s`,
`none` standing for `npos`. -/
def strFindAux (pat : WStr) : WStr → Option Nat
  | [] => if isPrefixL pat [] then some 0 else none
  | c :: t => if isPrefixL pat (c :: t) then some 0 else (strFindAux pat t).map (· + 1)

def strFind (s pat : WStr) : Option Nat := strFindAux pat s

/-- Embeds the C++ idiom `s.find(pat) != s.npos`. -/
def strContains (s pat : WStr) : Bool := (strFind s pat).isSome

/-- `std::wstring::npos` on a 64-bit target, as an unbounded natural. -/
def NPOS64 : Nat := 2 ^ 64 - 1

/-- The member `m_selfPidString`, built in `Initialize` as
`std::format(L"pid_{}", m_pid)`. -/
def selfPidStr (pid : Nat) : WStr := String.toList "pid_" ++ String.toList (Nat.repr pid)

/-- The local `keywordEngType` of `CollectGPUUtilization`: `L"_engtype_"`. -/
def keywordEngType : WStr := String.toList "_engtype_"

/-- The value of `pos` in `CollectGPUUtilization` after
`size_t pos = name.find(keywordEngType);` — the found index, or `npos`
when the delimiter is absent. -/
def engtypeFindPos (name : WStr) : Nat := (strFind name keywordEngType).getD NPOS64

/-- The start offset `pos + keywordEngType.length()` used by
`std::wstring(name.begin() + pos + keywordEngType.length(), name.end())`,
computed in exact (unwrapped) arithmetic. -/
def engtypeStartOffset (name : WStr) : Nat := engtypeFindPos name + keywordEngType.length

/-- The engine-type substring extracted by `CollectGPUUtilization`
(everything after the first `"_engtype_"`).  When the delimiter is absent
the C++ source indexes out of bounds (undefined behaviour, see the
offset analysis below); the embedding takes the drop past the end, which
is empty for any string of realistic length. -/
def engineKey (name : WStr) : WStr := name.drop (engtypeStartOffset name)

/-- The pid filter of the collectors: `name.find(m_selfPidString) != name.npos`. -/
def keepsEntry (selfPid : Nat) (name : WStr) : Bool := strContains name (selfPidStr selfPid)

/-- One element of the formatted counter array `PDH_FMT_COUNTERVALUE_ITEM`
read with `PDH_FMT_DOUBLE`. -/
structure GpuItem where
  szName : WStr
  value : ℚ
deriving DecidableEq

/-- `gpuEngineUtilization[engineType] += v` on a `std::unordered_map`
embedded as an association list (insertion with default `0.0`). -/
def mapAdd : List (WStr × ℚ) → WStr → ℚ → List (WStr × ℚ)
  | [], k, v => [(k, v)]
  | (k', v') :: t, k, v =>
    if k' = k then (k', v' + v) :: t else (k', v') :: mapAdd t k v

/-- Map lookup with the `unordered_map` default `0.0` for absent keys
(`GetGPUEngineUtilization` returns `0.0` when `find` misses). -/
def lookupD : List (WStr × ℚ) → WStr → ℚ
  | [], _ => 0
  | (k', v) :: t, k => if k' = k then v else lookupD t k

/-- The body of the loop of `SimplePerfCounter::CollectGPUUtilization`:
skip entries not containing `m_selfPidString`; extract the engine type
behind `"_engtype_"`; accumulate when the extracted key is non-empty. -/
def gpuStep (selfPid : Nat) (acc : List (WStr × ℚ)) (it : GpuItem) : List (WStr × ℚ) :=
  if keepsEntry selfPid it.szName then
    if (engineKey it.szName).isEmpty then acc
    else mapAdd acc (engineKey it.szName) it.value
  else acc

/-- `SimplePerfCounter::CollectGPUUtilization`: builds the per-engine-type
utilization map from the formatted counter array; returns the empty map
when the array read fails (`pdhStatus != ERROR_SUCCESS`). -/
def collectGPUUtilization (selfPid : Nat) (readOk : Bool) (items : List GpuItem) :
    List (WStr × ℚ) :=
  if readOk then items.foldl (gpuStep selfPid) [] else []

/-- `SimplePerfCounter::CollectGPUMemoryDedicated` / `...Shared`: sum the
`largeValue` fields of pid-matching entries into a `uint64_t`
accumulator (modulo `2 ^ 64`), or `0` when the array read fails. -/
def collectGPUMemory (selfPid : Nat) (readOk : Bool) (items : List (WStr × Int)) : Nat :=
  if readOk then
    items.foldl
      (fun acc it =>
        if keepsEntry selfPid it.1 then (acc + (it.2.emod (2 ^ 64)).toNat) % 2 ^ 64
        else acc)
      0
  else 0

/-- Digit accumulation for the embedded `swscanf_s(name, L"%u,%u", ...)`. -/
def takeDigitsVal : WStr → Nat → Nat × WStr
  | [], acc => (acc, [])
  | c :: t, acc =>
    if c.isDigit then takeDigitsVal t (acc * 10 + (c.toNat - 48)) else (acc, c :: t)

/-- Parse one `%u` item: at least one leading digit, value taken modulo
`2 ^ 32` (`unsigned int`); `none` when the input does not start with a
digit (conversion failure, the target variable keeps its initial `0`). -/
def parseUIntW (s : WStr) : Option (Nat × WStr) :=
  match s with
  | [] => none
  | c :: t =>
    if c.isDigit then
      let r := takeDigitsVal (c :: t) 0
      some (r.1 % 2 ^ 32, r.2)
    else none

/-- The `coreIndex` produced by `swscanf_s(name.c_str(), L"%u,%u", &cpuIndex,
&coreIndex)` in `CollectCPUUsageGlobal`; both variables are initialised to
`0`, so any conversion failure leaves `coreIndex = 0`. -/
def parseCoreIndex (name : WStr) : Nat :=
  match parseUIntW name with
  | none => 0
  | some r =>
    match r.2 with
    | ',' :: rest =>
      match parseUIntW rest with
      | none => 0
      | some r2 => r2.1
    | _ => 0

/-- `SimplePerfCounter::CollectCPUUsageGlobal`: on a successful array read,
a vector resized (zero-filled) to the item count, where each item writes
its value at its parsed core index when that index is in range; on a
failed read, the empty vector. -/
def collectCPUUsageGlobal (readOk : Bool) (items : List (WStr × ℚ)) : List ℚ :=
  if readOk then
    items.foldl
      (fun acc it =>
        if parseCoreIndex it.1 < acc.length then acc.set (parseCoreIndex it.1) it.2
        else acc)
      (List.replicate items.length 0)
  else []

/-- `SimplePerfCounter::CollectCPUUsage`: the formatted scalar (read with
`PDH_FMT_DOUBLE | PDH_FMT_NOCAP100`) divided by `m_logicalProcessorCount`
on success, `0.0` on failure. -/
def collectCPUUsage (count : Nat) (readOk : Bool) (raw : ℚ) : ℚ :=
  if readOk then raw / (count : ℚ) else 0

/-- The accumulation loop `for (auto& usage : cpuCoresUsage) cpuUsageGlobal += usage;`. -/
def sumQ (l : List ℚ) : ℚ := l.foldl (fun a b => a + b) 0

/-- The members of `SimplePerfCounter` guarded by `m_mutex` (the Shared
State Store): engine map, GPU memory snapshot, both CPU scalars, and the
per-core vector. -/
structure SharedState where
  gpuEngineUtilization : List (WStr × ℚ)
  gpuMemDedicated : Nat
  gpuMemShared : Nat
  cpuUsage : ℚ
  cpuUsageGlobal : ℚ
  cpuCoresUsage : List ℚ
deriving DecidableEq

/-- Per-session constants fixed at `Initialize`: the configuration flag,
`m_logicalProcessorCount` and `m_pid`. -/
structure Config where
  useGlobal : Bool
  logicalProcessorCount : Nat
  pid : Nat
deriving DecidableEq

/-- The environment one worker iteration observes from the PDH subsystem:
the `PdhCollectQueryData` status, each formatted-array read (status and
items), the size of `GetProcessPathList()`, and the process-CPU scalar
read. -/
structure TickEnv where
  collectOk : Bool
  gpuReadOk : Bool
  gpuItems : List GpuItem
  dedReadOk : Bool
  dedItems : List (WStr × Int)
  sharedReadOk : Bool
  sharedItems : List (WStr × Int)
  coreReadOk : Bool
  coreItems : List (WStr × ℚ)
  processPathCount : Nat
  cpuReadOk : Bool
  cpuRaw : ℚ

/-- The Shared State Store right after `SimplePerfCounter::Initialize`:
scalars at their member initialisers (`0`), the core vector resized to
the logical processor count (zero-filled), the engine map empty. -/
def initState (count : Nat) : SharedState :=
  { gpuEngineUtilization := []
    gpuMemDedicated := 0
    gpuMemShared := 0
    cpuUsage := 0
    cpuUsageGlobal := 0
    cpuCoresUsage := List.replicate count 0 }

/-- One iteration of `SimplePerfCounter::WorkerThread`: when
`PdhCollectQueryData` fails, `continue` (the store is untouched);
otherwise run the collectors and commit every field under the lock.
The process-CPU local starts at the previous `m_cpuUsage`; in global
mode it is never overwritten, in process mode an ambiguous path list
(`size() > 1`) triggers re-resolution instead of sampling, and otherwise
`CollectCPUUsage()` supplies the sample.  The commit smooths
`m_cpuUsage = (m_cpuUsage + cpuUsage) * 0.5` and clips each core entry
with `min(value, 100.0)`; the global scalar was averaged over
`max(1, size)` and clipped with `min(_, 100.0)` before the lock. -/
def tick (cfg : Config) (env : TickEnv) (st : SharedState) : SharedState :=
  if env.collectOk then
    let gpuEngine := collectGPUUtilization cfg.pid env.gpuReadOk env.gpuItems
    let ded := collectGPUMemory cfg.pid env.dedReadOk env.dedItems
    let sh := collectGPUMemory cfg.pid env.sharedReadOk env.sharedItems
    let cores := collectCPUUsageGlobal env.coreReadOk env.coreItems
    let g := min (sumQ cores / ((max 1 cores.length : Nat) : ℚ)) 100
    let sample :=
      if cfg.useGlobal then st.cpuUsage
      else if 1 < env.processPathCount then st.cpuUsage
      else collectCPUUsage cfg.logicalProcessorCount env.cpuReadOk env.cpuRaw
    { gpuEngineUtilization := gpuEngine
      gpuMemDedicated := ded
      gpuMemShared := sh
      cpuUsage := (st.cpuUsage + sample) * (1 / 2)
      cpuUsageGlobal := g
      cpuCoresUsage := cores.map (fun v => min v 100) }
  else st

/-- The states the Shared State Store can reach during a session whose
tick environments all satisfy `P`: the post-`Initialize` state, closed
under worker iterations. -/
inductive ReachableP (cfg : Config) (P : TickEnv → Prop) : SharedState → Prop
  | init : ReachableP cfg P (initState cfg.logicalProcessorCount)
  | step (env : TickEnv) (st : SharedState) :
      P env → ReachableP cfg P st → ReachableP cfg P (tick cfg env st)

/-- `SimplePerfCounter::GetCPUUtilization`: the global or the process
scalar, per the configuration chosen at `Initialize`. -/
def GetCPUUtilization (cfg : Config) (st : SharedState) : ℚ :=
  if cfg.useGlobal then st.cpuUsageGlobal else st.cpuUsage

/-- `SimplePerfCounter::GetCPUCoresUtilization`: a copy of the per-core
vector. -/
def GetCPUCoresUtilization (st : SharedState) : List ℚ := st.cpuCoresUsage

/-- The environmental contract the spec states for the raw CPU inputs of
one tick: per-core formatted values are percentages (non-negative; the
global counter is read without `PDH_FMT_NOCAP100`, so PDH has already
capped them), and the process counter value is "aggregate time across
all cores", i.e. between `0` and `100 · logicalProcessorCount`. -/
def EnvBounded (cfg : Config) (env : TickEnv) : Prop :=
  (∀ p ∈ env.coreItems, 0 ≤ p.2 ∧ p.2 ≤ 100) ∧
    0 ≤ env.cpuRaw ∧ env.cpuRaw ≤ 100 * (cfg.logicalProcessorCount : ℚ)

/-- The loop of `SimplePerfCounter::GetPathMatched` over the candidate
paths.  Each candidate is paired with the outcome of reading its
`"ID Process"` counter on the side query (`none` when
`PdhGetFormattedCounterValue` fails, otherwise the `LONG` value after
the unsigned conversion applied by `m_pid == PID`).  `desiredInstancePath`
is set on a pid match, and the loop breaks as soon as it is non-empty. -/
def getPathMatchedSearch (selfPid : Nat) (acc : WStr) :
    List (WStr × Option Nat) → WStr
  | [] => acc
  | (path, v) :: rest =>
    let acc' :=
      match v with
      | some pidVal => if pidVal = selfPid then path else acc
      | none => acc
    if acc'.isEmpty then getPathMatchedSearch selfPid acc' rest else acc'

/-- Embeds `s.rfind(pat)`: the greatest index at which `pat` occurs. -/
def strRfindAux (pat : WStr) : WStr → Option Nat
  | [] => if isPrefixL pat [] then some 0 else none
  | c :: t =>
    match strRfindAux pat t with
    | some j => some (j + 1)
    | none => if isPrefixL pat (c :: t) then some 0 else none

def strRfind (s pat : WStr) : Option Nat := strRfindAux pat s

/-- The literal `L"\\"` searched by `rfind`. -/
def backslashStr : WStr := String.toList "\\"

/-- The literal `L"\\% Processor Time"` appended to the matched prefix. -/
def procTimeSuffix : WStr := String.toList "\\% Processor Time"

/-- `SimplePerfCounter::GetPathMatched`: find the candidate whose
`"ID Process"` value equals the calling pid, then replace its leaf
component: `substr(0, rfind(L"\\")) + L"\\% Processor Time"`
(`substr(0, npos)` keeps the whole string). -/
def getPathMatched (selfPid : Nat) (probes : List (WStr × Option Nat)) : WStr :=
  let d := getPathMatchedSearch selfPid [] probes
  let d2 :=
    match strRfind d backslashStr with
    | none => d
    | some p => d.take p
  d2 ++ procTimeSuffix

/-- The guard of `SimplePerfCounter::SetupCounterCpuUsage`: registration
of the process-CPU counter proceeds exactly when
`GetPathMatched(GetProcessPathList())` is non-empty (the early `return`
on `counterPath.empty()` is not taken). -/
def setupCpuCounterProceeds (selfPid : Nat) (probes : List (WStr × Option Nat)) : Bool :=
  !(getPathMatched selfPid probes).isEmpty

/-- `tiny_perf_counter::InitParams`. -/
structure InitParams where
  useGlobalCPUUtilization : Bool

/-- What `SimplePerfCounter::Initialize` observes from the OS: the current
pid, the two `PdhOpenQueryW` statuses, and `dwNumberOfProcessors`. -/
structure InitEnv where
  pid : Nat
  openQueryOk : Bool
  openPathQueryOk : Bool
  processorCount : Nat

/-- A constructed `SimplePerfCounter`: its fixed configuration, whether
`m_workerThread` was started, and its Shared State Store. -/
structure Session where
  cfg : Config
  threadStarted : Bool
  store : SharedState

/-- `SimplePerfCounter::Initialize`: fails (starting no thread) when
either `PdhOpenQueryW` fails; otherwise captures the processor count,
sizes the core vector, and starts the single worker thread. -/
def implInitialize (params : InitParams) (env : InitEnv) : Bool × Session :=
  let cfg : Config :=
    { useGlobal := params.useGlobalCPUUtilization
      logicalProcessorCount := env.processorCount
      pid := env.pid }
  if env.openQueryOk then
    if env.openPathQueryOk then
      (true, { cfg := cfg, threadStarted := true, store := initState env.processorCount })
    else (false, { cfg := cfg, threadStarted := false, store := initState 0 })
  else (false, { cfg := cfg, threadStarted := false, store := initState 0 })

/-- `tiny_perf_counter::Initialize`: when `impl::gPerformanceCounter` is
already set, return `true` without touching it; otherwise construct a
`SimplePerfCounter`, store it in the global, and run its `Initialize`. -/
def pubInitialize (g : Option Session) (params : InitParams) (env : InitEnv) :
    Bool × Option Session :=
  match g with
  | some s => (true, some s)
  | none =>
    let r := implInitialize params env
    (r.1, some r.2)

/-- `tiny_perf_counter::Shutdown`: resets the global (joining the worker
in the destructor); a no-op when no session is active. -/
def pubShutdown (g : Option Session) : Option Session :=
  match g with
  | some _ => none
  | none => none

/-- The number of worker threads in existence for a given global state:
one per live session whose thread was started. -/
def workerCount (g : Option Session) : Nat :=
  match g with
  | none => 0
  | some s => if s.threadStarted then 1 else 0

/-- The public accessors of `SimplePerfCounter`. -/
inductive PublicAccessor
  | getGPUEngineUtilizationNamed
  | getGPUEngineNames
  | getUsedGPUDedicatedMemory
  | getUsedGPUSharedMemory
  | getCPUUtilization
  | getCPUCoresUtilization
deriving DecidableEq

/-- Whether the body of each accessor takes `std::unique_lock lock(m_mutex)`
before reading the shared members, read off the source of
`SimplePerfCounter`: the two GPU-engine accessors
(`GetGPUEngineUtilization(const std::wstring&)` and the name-list
overload backing `GetGPUEngineNames`) read `m_gpuEngineUtilization`
without acquiring the lock; the other four accessors lock. -/
def acquiresStoreLock : PublicAccessor → Bool
  | .getGPUEngineUtilizationNamed => false
  | .getGPUEngineNames => false
  | .getUsedGPUDedicatedMemory => true
  | .getUsedGPUSharedMemory => true
  | .getCPUUtilization => true
  | .getCPUCoresUtilization => true

/-- Judged from the spec's description of the instance-name format ("Each
instance name encodes the owning process id"): on Windows a GPU Engine
instance name begins `pid_<pid>_luid_...`, so a name encodes owner `p`
exactly when it starts with `pid_<p>_luid`. -/
def encodesGpuEnginePid (name : WStr) (p : Nat) : Bool :=
  isPrefixL (String.toList "pid_" ++ String.toList (Nat.repr p) ++ String.toList "_luid") name

/-- A tick environment in which every PDH read fails except as overridden. -/
def quietEnv : TickEnv :=
  { collectOk := true
    gpuReadOk := false
    gpuItems := []
    dedReadOk := false
    dedItems := []
    sharedReadOk := false
    sharedItems := []
    coreReadOk := false
    coreItems := []
    processPathCount := 0
    cpuReadOk := false
    cpuRaw := 0 }

/-- Concrete session configuration for the range witness. -/
def cfgRange : Config := { useGlobal := true, logicalProcessorCount := 2, pid := 7 }

/-- Concrete tick environment for the range witness: one in-range per-core
sample and an in-range process sample. -/
def envRange : TickEnv :=
  { quietEnv with
      coreReadOk := true
      coreItems := [(String.toList "0,0", 42), (String.toList "0,1", 58)]
      cpuReadOk := true
      cpuRaw := 20 }

/-- Concrete configuration for the core-vector-length counterexample. -/
def cfgLen : Config := { useGlobal := true, logicalProcessorCount := 2, pid := 100 }

/-- A successful tick whose per-core array yields a single item although
two logical processors were captured at `Initialize`. -/
def envLen : TickEnv :=
  { quietEnv with coreReadOk := true, coreItems := [(String.toList "0,0", 42)] }

/-- Concrete configuration for the smoothing witness (process mode, four
logical processors). -/
def cfgSmooth : Config := { useGlobal := false, logicalProcessorCount := 4, pid := 100 }

/-- Scenario C environment: an unambiguous path list and a raw process
sample of `20.0`. -/
def envSmooth : TickEnv :=
  { quietEnv with processPathCount := 1, cpuReadOk := true, cpuRaw := 20 }

/-- A store whose previously published process scalar is `10.0`. -/
def stSmooth : SharedState :=
  { gpuEngineUtilization := []
    gpuMemDedicated := 0
    gpuMemShared := 0
    cpuUsage := 10
    cpuUsageGlobal := 0
    cpuCoresUsage := [] }

/-- An ambiguous tick environment: two candidate instances share the
executable base name; other reads succeed with concrete data. -/
def envAmbig : TickEnv :=
  { quietEnv with
      processPathCount := 2
      gpuReadOk := true
      gpuItems := [⟨String.toList "pid_100_luid_0x0_phys_0_eng_0_engtype_3D", 30⟩]
      coreReadOk := true
      coreItems := [(String.toList "0,0", 40)]
      cpuReadOk := true
      cpuRaw := 20 }

/-- An environment whose `PdhCollectQueryData` fails. -/
def envCollectFail : TickEnv := { quietEnv with collectOk := false }

/-- The raw GPU-engine entries of Scenario B: two entries of the calling
process (pid 100) and one of pid 999, all on engine type `3D`. -/
def scenarioBItems : List GpuItem :=
  [⟨String.toList "pid_100_luid_0x0_phys_0_eng_0_engtype_3D", 10⟩,
   ⟨String.toList "pid_100_luid_0x0_phys_0_eng_0_engtype_3D", 15⟩,
   ⟨String.toList "pid_999_luid_0x0_phys_0_eng_0_engtype_3D", 99⟩]

/-- Concrete parameters for the lifecycle witness. -/
def paramsInitW : InitParams := { useGlobalCPUUtilization := true }

/-- A concrete initialization environment in which both `PdhOpenQueryW`
calls succeed on a four-processor machine. -/
def envInitW : InitEnv :=
  { pid := 100, openQueryOk := true, openPathQueryOk := true, processorCount := 4 }

/-- The session produced by a successful first `Initialize` in `envInitW`. -/
def sessionInitW : Session :=
  { cfg := { useGlobal := true, logicalProcessorCount := 4, pid := 100 }
    threadStarted := true
    store := initState 4 }

/-- C4: on a tick whose `PdhCollectQueryData` call fails, the Shared State
Store is left completely unchanged (the worker `continue`s before any
collection), and a subsequent successful tick updates the store exactly
as it would have from the same prior state. -/
theorem collect_failure_skips_tick (cfg : Config) (envF env : TickEnv)
    (st : SharedState) (h : envF.collectOk = false) :
    tick cfg envF st = st ∧
      tick cfg env (tick cfg envF st) = tick cfg env st := by
  have h1 : tick cfg envF st = st := by simp [tick, h]
  exact ⟨h1, by rw [h1]⟩

/-- Witness for `collect_failure_skips_tick` at a concrete failing tick
followed by a concrete successful tick. -/
theorem collect_failure_skips_tick_witness :
    tick cfgRange envCollectFail (initState 2) = initState 2 ∧
      tick cfgRange envRange (tick cfgRange envCollectFail (initState 2)) =
        tick cfgRange envRange (initState 2) :=
  collect_failure_skips_tick cfgRange envCollectFail envRange (initState 2) rfl

/-- C5: on a successful process-CPU collection tick (process mode, no
name ambiguity, successful scalar read), the committed process scalar is
the 50/50 exponential smoothing of the previous published value with the
raw sample normalized by the logical processor count. -/
theorem process_cpu_smoothing (cfg : Config) (env : TickEnv) (st : SharedState)
    (hMode : cfg.useGlobal = false) (hOk : env.collectOk = true)
    (hUnamb : env.processPathCount ≤ 1) (hRead : env.cpuReadOk = true) :
    (tick cfg env st).cpuUsage =
      (1 / 2) * st.cpuUsage +
        (1 / 2) * (env.cpuRaw / (cfg.logicalProcessorCount : ℚ)) := by
  have hlt : ¬ 1 < env.processPathCount := by omega
  simp only [tick, hOk, hMode, hlt, collectCPUUsage, hRead, if_true, if_false,
    Bool.false_eq_true, ite_false, ite_true]
  ring

/-- Witness for `process_cpu_smoothing`: Scenario C — raw `20.0` over four
processors against a previous published value of `10.0` publishes `7.5`. -/
theorem process_cpu_smoothing_witness :
    (tick cfgSmooth envSmooth stSmooth).cpuUsage = 15 / 2 := by
  have h := process_cpu_smoothing cfgSmooth envSmooth stSmooth rfl rfl (by decide) rfl
  rw [h]
  norm_num [cfgSmooth, envSmooth, stSmooth]

/-- C6: on a tick where the path resolver reports more than one candidate
instance, the worker re-resolves instead of sampling: the committed
process scalar equals its previous value, while every other metric is
committed from this tick's collections as usual. -/
theorem ambiguity_freezes_process_scalar (cfg : Config) (env : TickEnv)
    (st : SharedState) (hMode : cfg.useGlobal = false) (hOk : env.collectOk = true)
    (hAmb : 1 < env.processPathCount) :
    (tick cfg env st).cpuUsage = st.cpuUsage ∧
    (tick cfg env st).gpuEngineUtilization =
      collectGPUUtilization cfg.pid env.gpuReadOk env.gpuItems ∧
    (tick cfg env st).gpuMemDedicated =
      collectGPUMemory cfg.pid env.dedReadOk env.dedItems ∧
    (tick cfg env st).gpuMemShared =
      collectGPUMemory cfg.pid env.sharedReadOk env.sharedItems ∧
    (tick cfg env st).cpuCoresUsage =
      (collectCPUUsageGlobal env.coreReadOk env.coreItems).map (fun v => min v 100) ∧
    (tick cfg env st).cpuUsageGlobal =
      min (sumQ (collectCPUUsageGlobal env.coreReadOk env.coreItems) /
        ((max 1 (collectCPUUsageGlobal env.coreReadOk env.coreItems).length : Nat) : ℚ))
        100 := by
  refine ⟨?_, ?_, ?_, ?_, ?_, ?_⟩ <;>
    simp only [tick, hOk, hMode, hAmb, if_true, if_false, Bool.false_eq_true,
      ite_false, ite_true]
  ring

/-- Witness for `ambiguity_freezes_process_scalar` at a concrete ambiguous
tick over a store with published process scalar `10.0`. -/
theorem ambiguity_freezes_process_scalar_witness :
    (tick cfgSmooth envAmbig stSmooth).cpuUsage = stSmooth.cpuUsage ∧
    (tick cfgSmooth envAmbig stSmooth).gpuEngineUtilization =
      collectGPUUtilization cfgSmooth.pid envAmbig.gpuReadOk envAmbig.gpuItems ∧
    (tick cfgSmooth envAmbig stSmooth).gpuMemDedicated =
      collectGPUMemory cfgSmooth.pid envAmbig.dedReadOk envAmbig.dedItems ∧
    (tick cfgSmooth envAmbig stSmooth).gpuMemShared =
      collectGPUMemory cfgSmooth.pid envAmbig.sharedReadOk envAmbig.sharedItems ∧
    (tick cfgSmooth envAmbig stSmooth).cpuCoresUsage =
      (collectCPUUsageGlobal envAmbig.coreReadOk envAmbig.coreItems).map
        (fun v => min v 100) ∧
    (tick cfgSmooth envAmbig stSmooth).cpuUsageGlobal =
      min (sumQ (collectCPUUsageGlobal envAmbig.coreReadOk envAmbig.coreItems) /
        ((max 1 (collectCPUUsageGlobal envAmbig.coreReadOk
            envAmbig.coreItems).length : Nat) : ℚ)) 100 :=
  ambiguity_freezes_process_scalar cfgSmooth envAmbig stSmooth rfl rfl (by decide)

/-- C7: `Initialize` is idempotent — after a successful first call, a
second call (with any parameters, in any environment) returns success,
leaves the global session untouched, and exactly one worker thread
exists. -/
theorem initialize_idempotent (params params2 : InitParams) (env env2 : InitEnv)
    (s : Session) (h : pubInitialize none params env = (true, some s)) :
    pubInitialize (some s) params2 env2 = (true, some s) ∧
      workerCount (some s) = 1 := by
  refine ⟨rfl, ?_⟩
  unfold pubInitialize implInitialize at h
  cases h1 : env.openQueryOk <;> rw [h1] at h
  · simp at h
  · cases h2 : env.openPathQueryOk <;> rw [h2] at h
    · simp at h
    · simp only [if_true] at h
      have hs := Option.some.inj (congrArg Prod.snd h)
      rw [← hs]
      simp [workerCount]

/-- Witness for `initialize_idempotent`: a concrete successful first call
followed by a second call with different parameters. -/
theorem initialize_idempotent_witness :
    pubInitialize (some sessionInitW) { useGlobalCPUUtilization := false } envInitW =
        (true, some sessionInitW) ∧
      workerCount (some sessionInitW) = 1 :=
  initialize_idempotent paramsInitW { useGlobalCPUUtilization := false }
    envInitW envInitW sessionInitW rfl

/-- C8 (code bug): the Shared State Store lock discipline is violated by
the two GPU-engine accessors — `GetGPUEngineUtilization(name)` and the
backend of `GetGPUEngineNames` read the engine map without acquiring
`m_mutex`, so not every public accessor locks for its read. -/
theorem gpu_engine_accessors_do_not_lock :
    acquiresStoreLock PublicAccessor.getGPUEngineNames = false ∧
    acquiresStoreLock PublicAccessor.getGPUEngineUtilizationNamed = false ∧
    ¬ ∀ a : PublicAccessor, acquiresStoreLock a = true :=
  ⟨rfl, rfl, fun h => absurd (h PublicAccessor.getGPUEngineNames) (by decide)⟩

/-- When no candidate's `"ID Process"` read yields the calling pid, the
search loop of `GetPathMatched` leaves `desiredInstancePath` empty. -/
theorem getPathMatchedSearch_no_match (selfPid : Nat)
    (probes : List (WStr × Option Nat))
    (h : ∀ p ∈ probes, p.2 ≠ some selfPid) :
    getPathMatchedSearch selfPid [] probes = [] := by
  induction probes with
  | nil => rfl
  | cons p rest ih =>
    obtain ⟨path, v⟩ := p
    have hrest : ∀ q ∈ rest, q.2 ≠ some selfPid :=
      fun q hq => h q (List.mem_cons_of_mem _ hq)
    match v with
    | none => simpa [getPathMatchedSearch] using ih hrest
    | some pv =>
      have hne : ¬ pv = selfPid := by
        intro he
        exact h (path, some pv) (List.mem_cons_self _ _) (by rw [he])
      simpa [getPathMatchedSearch, hne] using ih hrest

/-- C10: for every candidate list in which no candidate's `"ID Process"`
value equals the calling pid — the empty list included — `GetPathMatched`
returns the fixed non-empty fallback `"\% Processor Time"`, so the
empty-path early return of `SetupCounterCpuUsage` is never taken and the
fallback path reaches counter registration. -/
theorem getPathMatched_fallback (selfPid : Nat)
    (probes : List (WStr × Option Nat))
    (h : ∀ p ∈ probes, p.2 ≠ some selfPid) :
    getPathMatched selfPid probes = procTimeSuffix ∧
      procTimeSuffix ≠ [] ∧
      setupCpuCounterProceeds selfPid probes = true := by
  have hs := getPathMatchedSearch_no_match selfPid probes h
  have h1 : getPathMatched selfPid probes = procTimeSuffix := by
    simp [getPathMatched, hs, strRfind, strRfindAux, backslashStr, isPrefixL]
  refine ⟨h1, by decide, ?_⟩
  simp [setupCpuCounterProceeds, h1, procTimeSuffix]

/-- Witness for `getPathMatched_fallback`: one candidate whose
`"ID Process"` value is another process's pid, and pid `100` calling. -/
theorem getPathMatched_fallback_witness :
    getPathMatched 100 [(String.toList "\\Process(app)\\ID Process", some 55)] =
        procTimeSuffix ∧
      procTimeSuffix ≠ [] ∧
      setupCpuCounterProceeds 100
        [(String.toList "\\Process(app)\\ID Process", some 55)] = true :=
  getPathMatched_fallback 100 _ (by decide)

/-- A prefix is no longer than the string it is a prefix of. -/
theorem isPrefixL_length {pat s : WStr} (h : isPrefixL pat s = true) :
    pat.length ≤ s.length := by
  induction pat generalizing s with
  | nil => simp
  | cons a as ih =>
    match s with
    | [] => simp [isPrefixL] at h
    | b :: bs =>
      simp only [isPrefixL, Bool.and_eq_true] at h
      simpa [Nat.succ_le_succ_iff] using ih h.2

/-- A found occurrence of `pat` in `s` fits inside `s`. -/
theorem strFind_bound {s pat : WStr} {i : Nat} (h : strFind s pat = some i) :
    i + pat.length ≤ s.length := by
  unfold strFind at h
  induction s generalizing i with
  | nil =>
    unfold strFindAux at h
    by_cases hp : isPrefixL pat [] = true
    · simp only [hp, if_true] at h
      obtain rfl : (0 : Nat) = i := Option.some.inj h
      simpa using isPrefixL_length hp
    · simp [hp] at h
  | cons c t ih =>
    unfold strFindAux at h
    by_cases hp : isPrefixL pat (c :: t) = true
    · simp [hp] at h
      have := isPrefixL_length hp
      omega
    · simp [hp] at h
      obtain ⟨j, hj, hji⟩ := h
      have := ih hj
      simp only [List.length_cons]
      omega

/-- C9: the engine-type extraction of `CollectGPUUtilization` stays inside
the instance name exactly when the name contains the `"_engtype_"`
delimiter: with the delimiter present the computed start offset is in
bounds, and with it absent the offset is `npos + 9` in exact `size_t`
arithmetic — far past the end of any representable string. -/
theorem engtype_extraction_bounds (name : WStr) :
    (strContains name keywordEngType = true →
      engtypeStartOffset name ≤ name.length) ∧
    (strContains name keywordEngType = false → name.length < 2 ^ 64 →
      engtypeStartOffset name = NPOS64 + 9 ∧
        name.length < engtypeStartOffset name) := by
  constructor
  · intro h
    obtain ⟨i, hi⟩ := Option.isSome_iff_exists.mp h
    have hb := strFind_bound hi
    simp only [engtypeStartOffset, engtypeFindPos, hi, Option.getD_some]
    simpa using hb
  · intro h hlen
    have hnone : strFind name keywordEngType = none := by
      simpa [strContains, Option.isSome_iff_exists] using h
    have hoff : engtypeStartOffset name = NPOS64 + 9 := by
      have h9 : keywordEngType.length = 9 := by decide
      simp [engtypeStartOffset, engtypeFindPos, hnone, h9]
    refine ⟨hoff, ?_⟩
    rw [hoff]
    have : NPOS64 + 9 = 2 ^ 64 + 8 := by norm_num [NPOS64]
    omega

/-- Witness for `engtype_extraction_bounds`: a pid-matching name with the
delimiter keeps the offset in bounds, and one without the delimiter puts
it at `npos + 9`, past the end. -/
theorem engtype_extraction_bounds_witness :
    (engtypeStartOffset
        (String.toList "pid_100_luid_0x0_phys_0_eng_0_engtype_3D") ≤
      (String.toList "pid_100_luid_0x0_phys_0_eng_0_engtype_3D").length) ∧
    (engtypeStartOffset (String.toList "pid_100_no_delimiter") = NPOS64 + 9 ∧
      (String.toList "pid_100_no_delimiter").length <
        engtypeStartOffset (String.toList "pid_100_no_delimiter")) :=
  ⟨(engtype_extraction_bounds _).1 (by decide),
   (engtype_extraction_bounds _).2 (by decide) (by decide)⟩

/-- `mapAdd` adds `v` at key `k` and leaves every other key's value. -/
theorem lookupD_mapAdd (m : List (WStr × ℚ)) (k k' : WStr) (v : ℚ) :
    lookupD (mapAdd m k v) k' = lookupD m k' + (if k = k' then v else 0) := by
  induction m with
  | nil =>
    by_cases h : k = k' <;> simp [mapAdd, lookupD, h]
  | cons a t ih =>
    obtain ⟨ka, va⟩ := a
    by_cases h1 : ka = k
    · subst h1
      by_cases h2 : ka = k' <;> simp [mapAdd, lookupD, h2]
    · by_cases h2 : ka = k'
      · subst h2
        have hkka : ¬ k = ka := fun he => h1 he.symm
        simp [mapAdd, lookupD, h1, hkka]
      · simp [mapAdd, lookupD, h1, h2, ih]

/-- Unfolding the loop of `CollectGPUUtilization`: for any non-empty key
`k`, the accumulated value at `k` is the starting value plus the sum of
the values of exactly those items that pass the pid filter and whose
extracted engine type is `k`. -/
theorem lookupD_gpuFold (selfPid : Nat) (k : WStr) (hk : k ≠ [])
    (items : List GpuItem) (acc : List (WStr × ℚ)) :
    lookupD (items.foldl (gpuStep selfPid) acc) k =
      lookupD acc k +
        ((items.filter (fun it =>
            keepsEntry selfPid it.szName && decide (engineKey it.szName = k))).map
          GpuItem.value).sum := by
  induction items generalizing acc with
  | nil => simp
  | cons it t ih =>
    rw [List.foldl_cons, ih, List.filter_cons]
    by_cases hkeep : keepsEntry selfPid it.szName = true
    · by_cases hkey : engineKey it.szName = k
      · have hne : (engineKey it.szName).isEmpty = false := by
          rw [hkey]
          cases k with
          | nil => exact absurd rfl hk
          | cons a l => rfl
        have hstep : gpuStep selfPid acc it = mapAdd acc k it.value := by
          simp [gpuStep, hkeep, hne, hkey, hk]
        rw [hstep, lookupD_mapAdd]
        simp [hkeep, hkey]
        ring
      · have hlk : lookupD (gpuStep selfPid acc it) k = lookupD acc k := by
          unfold gpuStep
          by_cases he : (engineKey it.szName).isEmpty = true
          · simp [hkeep, he]
          · simp [hkeep, he, lookupD_mapAdd, hkey]
        simp [hkey, hlk]
    · have hkeep' : keepsEntry selfPid it.szName = false := by
        simpa using hkeep
      simp [gpuStep, hkeep']

/-- C3 (amended): the aggregation keeps exactly the entries whose instance
name contains the substring `pid_<own pid>` (which can also admit another
process whose encoded marker merely contains it), takes the suffix after
`"_engtype_"` as the engine type, and sums values per engine type; in
particular Scenario B (own pid `100`, two `pid_100` entries of `10.0` and
`15.0`, one `pid_999` entry of `99.0`) yields the map `{"3D": 25.0}`. -/
theorem gpu_aggregation_sums_by_marker (selfPid : Nat) (items : List GpuItem)
    (k : WStr) (hk : k ≠ []) :
    lookupD (collectGPUUtilization selfPid true items) k =
      ((items.filter (fun it =>
          keepsEntry selfPid it.szName && decide (engineKey it.szName = k))).map
        GpuItem.value).sum ∧
    lookupD (collectGPUUtilization 100 true scenarioBItems)
      (String.toList "3D") = 25 := by
  constructor
  · simpa [collectGPUUtilization, lookupD] using lookupD_gpuFold selfPid k hk items []
  · have h := lookupD_gpuFold 100 (String.toList "3D") (by decide) scenarioBItems []
    have hfil : scenarioBItems.filter (fun it =>
        keepsEntry 100 it.szName &&
          decide (engineKey it.szName = String.toList "3D")) =
        [⟨String.toList "pid_100_luid_0x0_phys_0_eng_0_engtype_3D", 10⟩,
         ⟨String.toList "pid_100_luid_0x0_phys_0_eng_0_engtype_3D", 15⟩] := by decide
    have hcol : collectGPUUtilization 100 true scenarioBItems =
        scenarioBItems.foldl (gpuStep 100) [] := rfl
    rw [hcol, h, hfil]
    norm_num [lookupD]

/-- Witness for `gpu_aggregation_sums_by_marker` at own pid `100`, the
Scenario B items, and engine type `"3D"`. -/
theorem gpu_aggregation_sums_by_marker_witness :
    lookupD (collectGPUUtilization 100 true scenarioBItems) (String.toList "3D") =
      ((scenarioBItems.filter (fun it => keepsEntry 100 it.szName &&
          decide (engineKey it.szName = String.toList "3D"))).map
        GpuItem.value).sum ∧
    lookupD (collectGPUUtilization 100 true scenarioBItems) (String.toList "3D") = 25 :=
  ⟨(gpu_aggregation_sums_by_marker 100 scenarioBItems (String.toList "3D") (by decide)).1,
   (gpu_aggregation_sums_by_marker 100 scenarioBItems (String.toList "3D") (by decide)).2⟩

/-- Counterexample for C3 as stated: the instance name
`pid_1000_luid_0x0_phys_0_eng_0_engtype_3D` encodes owning pid `1000` —
not the calling pid `100` — yet the substring filter keeps it, so an
entry of another process is not excluded and contributes its full
`99.0` to the engine map. -/
theorem gpu_marker_admits_other_pid :
    encodesGpuEnginePid
        (String.toList "pid_1000_luid_0x0_phys_0_eng_0_engtype_3D") 1000 = true ∧
    encodesGpuEnginePid
        (String.toList "pid_1000_luid_0x0_phys_0_eng_0_engtype_3D") 100 = false ∧
    keepsEntry 100
        (String.toList "pid_1000_luid_0x0_phys_0_eng_0_engtype_3D") = true ∧
    lookupD (collectGPUUtilization 100 true
        [⟨String.toList "pid_1000_luid_0x0_phys_0_eng_0_engtype_3D", 99⟩])
      (String.toList "3D") = 99 := by decide

/-- The per-core write loop never changes the vector's length. -/
theorem coreFold_length (items : List (WStr × ℚ)) (acc : List ℚ) :
    (items.foldl
        (fun acc it =>
          if parseCoreIndex it.1 < acc.length then acc.set (parseCoreIndex it.1) it.2
          else acc)
        acc).length = acc.length := by
  induction items generalizing acc with
  | nil => rfl
  | cons it t ih =>
    rw [List.foldl_cons, ih]
    by_cases h : parseCoreIndex it.1 < acc.length <;> simp [h]

/-- C2 (amended): the length of the published core vector is not held at
the count captured by `Initialize`; each committed tick resizes it to the
item count of that tick's per-core collection (`0` when the array read
fails), while a tick whose `PdhCollectQueryData` fails leaves it alone.
Only the initial vector has length equal to the logical processor
count. -/
theorem core_vector_length_tracks_item_count (cfg : Config) (env : TickEnv)
    (st : SharedState) :
    (GetCPUCoresUtilization (tick cfg env st)).length =
      (if env.collectOk then
        (if env.coreReadOk then env.coreItems.length else 0)
       else (GetCPUCoresUtilization st).length) ∧
    (GetCPUCoresUtilization (initState cfg.logicalProcessorCount)).length =
      cfg.logicalProcessorCount := by
  constructor
  · cases hc : env.collectOk
    · simp [tick, hc, GetCPUCoresUtilization]
    · cases hr : env.coreReadOk <;>
        simp [tick, hc, hr, GetCPUCoresUtilization, collectCPUUsageGlobal,
          coreFold_length]
  · simp [initState, GetCPUCoresUtilization]

/-- Counterexample for C2 as stated: with two logical processors captured
at `Initialize`, a reachable state — one successful tick whose per-core
collection yields a single item — publishes a core vector of length `1`,
not `2`. -/
theorem core_vector_length_counterexample :
    ReachableP cfgLen (fun _ => True)
        (tick cfgLen envLen (initState cfgLen.logicalProcessorCount)) ∧
      (GetCPUCoresUtilization
          (tick cfgLen envLen (initState cfgLen.logicalProcessorCount))).length ≠
        cfgLen.logicalProcessorCount := by
  refine ⟨ReachableP.step envLen _ trivial ReachableP.init, ?_⟩
  have h : (GetCPUCoresUtilization
      (tick cfgLen envLen (initState cfgLen.logicalProcessorCount))).length = 1 := by
    simp [tick, GetCPUCoresUtilization, collectCPUUsageGlobal, coreFold_length,
      envLen, cfgLen, quietEnv]
    decide
  rw [h]
  decide

/-- The per-core write loop preserves non-negativity of every cell when
every incoming item value is non-negative. -/
theorem coreFold_nonneg (items : List (WStr × ℚ)) (acc : List ℚ)
    (hacc : ∀ v ∈ acc, 0 ≤ v) (hitems : ∀ p ∈ items, 0 ≤ p.2) :
    ∀ v ∈ items.foldl
        (fun acc it =>
          if parseCoreIndex it.1 < acc.length then acc.set (parseCoreIndex it.1) it.2
          else acc)
        acc, 0 ≤ v := by
  induction items generalizing acc with
  | nil => exact hacc
  | cons it t ih =>
    rw [List.foldl_cons]
    refine ih _ ?_ (fun p hp => hitems p (List.mem_cons_of_mem _ hp))
    by_cases h : parseCoreIndex it.1 < acc.length
    · rw [if_pos h]
      intro v hv
      rcases List.mem_or_eq_of_mem_set hv with hm | he
      · exact hacc v hm
      · rw [he]
        exact hitems it (List.mem_cons_self _ _)
    · rw [if_neg h]
      exact hacc
/-- Every cell of the vector built by `CollectCPUUsageGlobal` is
non-negative when every raw item value is. -/
theorem collectCPUUsageGlobal_nonneg (readOk : Bool) (items : List (WStr × ℚ))
    (h : ∀ p ∈ items, 0 ≤ p.2) :
    ∀ v ∈ collectCPUUsageGlobal readOk items, 0 ≤ v := by
  cases readOk
  · simp [collectCPUUsageGlobal]
  · refine coreFold_nonneg items _ ?_ h
    intro v hv
    rw [List.eq_of_mem_replicate hv]

/-- Left folds of addition over non-negative rationals stay non-negative. -/
theorem foldl_add_nonneg (l : List ℚ) (a : ℚ) (ha : 0 ≤ a)
    (h : ∀ v ∈ l, 0 ≤ v) : 0 ≤ l.foldl (fun x y => x + y) a := by
  induction l generalizing a with
  | nil => exact ha
  | cons v t ih =>
    rw [List.foldl_cons]
    refine ih _ ?_ (fun w hw => h w (List.mem_cons_of_mem _ hw))
    have := h v (List.mem_cons_self _ _)
    linarith

/-- `sumQ` of a list of non-negative rationals is non-negative. -/
theorem sumQ_nonneg (l : List ℚ) (h : ∀ v ∈ l, 0 ≤ v) : 0 ≤ sumQ l :=
  foldl_add_nonneg l 0 le_rfl h

/-- The range invariant of the Shared State Store: in every session whose
tick environments satisfy the spec's input contract, both CPU scalars
and every core-vector cell stay inside `[0, 100]`. -/
theorem cpu_range_invariant (cfg : Config) (st : SharedState)
    (h : ReachableP cfg (EnvBounded cfg) st) :
    (0 ≤ st.cpuUsage ∧ st.cpuUsage ≤ 100) ∧
    (0 ≤ st.cpuUsageGlobal ∧ st.cpuUsageGlobal ≤ 100) ∧
    ∀ v ∈ st.cpuCoresUsage, 0 ≤ v ∧ v ≤ 100 := by
  induction h with
  | init =>
    refine ⟨by norm_num [initState], by norm_num [initState], ?_⟩
    intro v hv
    simp only [initState] at hv
    rw [List.eq_of_mem_replicate hv]
    constructor <;> norm_num
  | step env st' hP hre ih =>
    cases hc : env.collectOk
    · simpa [tick, hc] using ih
    · have hcores : ∀ v ∈ collectCPUUsageGlobal env.coreReadOk env.coreItems, 0 ≤ v :=
        collectCPUUsageGlobal_nonneg env.coreReadOk env.coreItems
          (fun p hp => (hP.1 p hp).1)
      have hsum : 0 ≤ sumQ (collectCPUUsageGlobal env.coreReadOk env.coreItems) :=
        sumQ_nonneg _ hcores
      have hM : (0 : ℚ) ≤
          ((max 1 (collectCPUUsageGlobal env.coreReadOk env.coreItems).length : Nat) : ℚ) := by
        positivity
      have hsample :
          0 ≤ collectCPUUsage cfg.logicalProcessorCount env.cpuReadOk env.cpuRaw ∧
            collectCPUUsage cfg.logicalProcessorCount env.cpuReadOk env.cpuRaw ≤ 100 := by
        unfold collectCPUUsage
        cases env.cpuReadOk
        · simp
        · simp only [if_true, ite_true]
          constructor
          · exact div_nonneg hP.2.1 (Nat.cast_nonneg _)
          · rcases Nat.eq_zero_or_pos cfg.logicalProcessorCount with h0 | hpos
            · rw [h0]
              simp
            · have hposQ : (0 : ℚ) < (cfg.logicalProcessorCount : ℚ) := by
                exact_mod_cast hpos
              rw [div_le_iff₀ hposQ]
              exact hP.2.2
      simp only [tick, hc, if_true, ite_true]
      refine ⟨?_, ?_, ?_⟩
      · rcases ih with ⟨⟨hl, hu⟩, -, -⟩
        cases hg : cfg.useGlobal
        · by_cases hamb : 1 < env.processPathCount
          · simp only [hg, hamb, if_true, if_false, Bool.false_eq_true, ite_true,
              ite_false]
            constructor <;> linarith
          · simp only [hg, hamb, if_true, if_false, Bool.false_eq_true, ite_true,
              ite_false]
            rcases hsample with ⟨hs0, hs1⟩
            constructor <;> linarith
        · simp only [hg, ite_true]
          constructor <;> linarith
      · constructor
        · refine le_min ?_ (by norm_num)
          exact div_nonneg hsum hM
        · exact min_le_right _ _
      · intro v hv
        rw [List.mem_map] at hv
        obtain ⟨u, hu, rfl⟩ := hv
        have h0 := hcores u hu
        exact ⟨le_min h0 (by norm_num), min_le_right _ _⟩

/-- C1: in every reachable state of a session whose raw inputs respect the
counter subsystem's ranges (per-core percentages in `[0, 100]`, process
raw value between `0` and `100 · processor count`), every value
`GetCPUUtilization()` can return — the global scalar as well as the
process scalar — and every element of `GetCPUCoresUtilization()` lies in
`[0, 100]`. -/
theorem published_percentages_in_range (cfg : Config) (st : SharedState)
    (h : ReachableP cfg (EnvBounded cfg) st) :
    (0 ≤ st.cpuUsage ∧ st.cpuUsage ≤ 100) ∧
    (0 ≤ st.cpuUsageGlobal ∧ st.cpuUsageGlobal ≤ 100) ∧
    (0 ≤ GetCPUUtilization cfg st ∧ GetCPUUtilization cfg st ≤ 100) ∧
    ∀ v ∈ GetCPUCoresUtilization st, 0 ≤ v ∧ v ≤ 100 := by
  obtain ⟨h1, h2, h3⟩ := cpu_range_invariant cfg st h
  refine ⟨h1, h2, ?_, h3⟩
  unfold GetCPUUtilization
  cases cfg.useGlobal
  · simpa using h1
  · simpa using h2

/-- Witness for `published_percentages_in_range`: the state after one
concrete in-range tick from the initial state of a two-processor
session. -/
theorem published_percentages_in_range_witness :
    (0 ≤ (tick cfgRange envRange (initState cfgRange.logicalProcessorCount)).cpuUsage ∧
      (tick cfgRange envRange (initState cfgRange.logicalProcessorCount)).cpuUsage ≤ 100) ∧
    (0 ≤ (tick cfgRange envRange (initState cfgRange.logicalProcessorCount)).cpuUsageGlobal ∧
      (tick cfgRange envRange (initState cfgRange.logicalProcessorCount)).cpuUsageGlobal ≤ 100) ∧
    (0 ≤ GetCPUUtilization cfgRange
        (tick cfgRange envRange (initState cfgRange.logicalProcessorCount)) ∧
      GetCPUUtilization cfgRange
        (tick cfgRange envRange (initState cfgRange.logicalProcessorCount)) ≤ 100) ∧
    ∀ v ∈ GetCPUCoresUtilization
        (tick cfgRange envRange (initState cfgRange.logicalProcessorCount)),
      0 ≤ v ∧ v ≤ 100 :=
  published_percentages_in_range cfgRange _
    (ReachableP.step envRange _
      (by
        refine ⟨?_, ?_, ?_⟩
        · intro p hp
          simp only [envRange, quietEnv, List.mem_cons, List.not_mem_nil,
            or_false] at hp
          rcases hp with h | h <;> subst h <;> norm_num
        · norm_num [envRange, quietEnv]
        · norm_num [envRange, quietEnv, cfgRange])
      ReachableP.init)

end TinyPerf
